import Mathlib

/-!
Shallow embedding of `rosbridge_library/internal/publishers.py`.

The module defines three classes:
  * `PublisherConsistencyListener` - a time-bounded buffer attached to a
    freshly created publisher; it records outgoing messages for a window of
    `timeout` seconds after creation and replays them to each newly
    connecting subscriber.
  * `MultiPublisher` - one shared publication endpoint per topic, with a
    client set, a message class, and an attached listener.
  * `PublisherManager` - a registry mapping topic names to `MultiPublisher`
    instances.

External collaborators (`rostopic.get_topic_type`, `ros_loader.get_message_class`,
`message_conversion.populate_instance`) are modelled as an explicit
environment `RosEnv` of pure functions.  Wall-clock time is passed
explicitly as a `Nat` argument `now`.  Python object identity of
`MultiPublisher` instances is modelled by a freshness counter `nextEid`
in the manager state; Python exceptions are modelled by `Except` results,
and for methods that mutate state before raising the Lean function returns
the mutated state together with the error, mirroring the fact that a Python
exception does not roll back mutations already performed.
-/

set_option autoImplicit false

namespace RosbridgePublishers

/-- Decidable equality on `Except`, used to evaluate concrete runs of the
model by `decide`. -/
instance {ε α : Type} [DecidableEq ε] [DecidableEq α] : DecidableEq (Except ε α) :=
  fun a b =>
    match a, b with
    | .error e1, .error e2 =>
      if h : e1 = e2 then .isTrue (by rw [h]) else .isFalse (by simp [h])
    | .ok v1, .ok v2 =>
      if h : v1 = v2 then .isTrue (by rw [h]) else .isFalse (by simp [h])
    | .error _, .ok _ => .isFalse (by simp)
    | .ok _, .error _ => .isFalse (by simp)

/-- Error kinds raised by the publishers module (exception payloads are not
modelled, only the kind). -/
inductive PubError where
  | topicNotEstablished (topic : String)
  | typeConflict (topic : String)
  | unknownMessageType (msg_type : String)
  | malformedMessage
  deriving DecidableEq, Repr

/-- A resolved ROS message class, as returned by `ros_loader.get_message_class`.
`classId` models Python object identity of the class (the `is` comparison in
`verify_type`); `_type` models the class attribute `_type`, the canonical
type name of the schema. -/
structure MsgClass where
  classId : Nat
  _type : String
  deriving DecidableEq, Repr

/-- The external collaborators of the module: topic-type discovery, the
message-class loader, and the JSON-to-instance converter.  All are pure
functions of their arguments (the loader caches classes, so equal type
strings always yield the identical class object, which is why class
identity is modelled by equality of `MsgClass` values). -/
structure RosEnv where
  get_topic_type : String → Option String
  get_message_class : String → Except PubError MsgClass
  populate_instance : String → MsgClass → Except PubError String

/-- State of a `PublisherConsistencyListener`: the `attached` flag, the
creation timestamp recorded by `attach`, and the buffer of outgoing
messages. -/
structure PublisherConsistencyListener where
  attached : Bool
  established_time : Nat
  msg_buffer : List String
  deriving DecidableEq, Repr

namespace PublisherConsistencyListener

/-- Class attribute `timeout = 1`: seconds to wait for new subscribers. -/
def timeout : Nat := 1

/-- The `attach` method: records the creation time, empties the buffer and
sets the attached flag (interception of the publish path is modelled by the
`attached` flag being consulted in `MultiPublisher.publish`). -/
def attach (now : Nat) : PublisherConsistencyListener :=
  { attached := true, established_time := now, msg_buffer := [] }

/-- The `detach` method: restores the original publish path (modelled by
clearing the `attached` flag). -/
def detach (l : PublisherConsistencyListener) : PublisherConsistencyListener :=
  { l with attached := false }

/-- The `timed_out` method: `time() - self.established_time > self.timeout`. -/
def timed_out (l : PublisherConsistencyListener) (now : Nat) : Bool :=
  decide (now - l.established_time > timeout)

/-- The `peer_subscribe` callback: returns the list of messages delivered to
the newly connected peer - the snapshot of the buffer if still inside the
window, nothing if timed out.  It mutates no state (in particular it never
detaches). -/
def peer_subscribe (l : PublisherConsistencyListener) (now : Nat) : List String :=
  if l.timed_out now then [] else l.msg_buffer

/-- The `publish_override` method: appends the message to the buffer when not
timed out, and unconditionally forwards it to the real publish path.  Returns
the new listener state and the messages forwarded to the transport. -/
def publish_override (l : PublisherConsistencyListener) (now : Nat) (message : String) :
    PublisherConsistencyListener × List String :=
  if l.timed_out now then (l, [message])
  else ({ l with msg_buffer := l.msg_buffer ++ [message] }, [message])

end PublisherConsistencyListener

/-- State of a `MultiPublisher`: the topic, the resolved message class, the
client set (a Python dict whose keys are client ids; insertion order, no
multiplicity), and the attached consistency listener.  `eid` models Python
object identity of the instance. -/
structure MultiPublisher where
  eid : Nat
  topic : String
  msg_class : MsgClass
  clients : List String
  listener : PublisherConsistencyListener
  deriving DecidableEq, Repr

namespace MultiPublisher

/-- Helper for the constructor: the type actually used - the caller-supplied
one when present, otherwise the established topic type. -/
def resolvedType (topic_type msg_type : Option String) : Option String :=
  match msg_type with
  | some t => some t
  | none => topic_type

/-- Helper for the constructor: the check
`topic_type is not None and topic_type != msg_class._type`. -/
def topicTypeConflicts (topic_type : Option String) (msg_class : MsgClass) : Bool :=
  match topic_type with
  | some tt => decide (tt ≠ msg_class._type)
  | none => false

/-- The `MultiPublisher.__init__` constructor: queries the established topic
type, raises `topicNotEstablished` when neither a supplied nor an established
type exists, loads the message class of the resolved type (propagating loader
errors), raises `typeConflict` when the established type differs from the
loaded class's `_type`, and otherwise creates the publisher with an empty
client set and a freshly attached listener. -/
def init (env : RosEnv) (eid : Nat) (topic : String) (msg_type : Option String)
    (now : Nat) : Except PubError MultiPublisher :=
  let topic_type := env.get_topic_type topic
  match resolvedType topic_type msg_type with
  | none => .error (.topicNotEstablished topic)
  | some mt =>
    match env.get_message_class mt with
    | .error e => .error e
    | .ok msg_class =>
      if topicTypeConflicts topic_type msg_class then
        .error (.typeConflict topic)
      else
        .ok { eid := eid, topic := topic, msg_class := msg_class, clients := [],
              listener := PublisherConsistencyListener.attach now }

/-- The `unregister` method: unregisters the underlying rospy publisher
(external side effect, not modelled) and clears the client set. -/
def unregister (p : MultiPublisher) : MultiPublisher :=
  { p with clients := [] }

/-- The `verify_type` method: loads the class for `msg_type` (propagating
loader errors) and raises `typeConflict` unless it is identical to this
publisher's class. -/
def verify_type (env : RosEnv) (p : MultiPublisher) (msg_type : String) :
    Except PubError Unit :=
  match env.get_message_class msg_type with
  | .error e => .error e
  | .ok c => if c = p.msg_class then .ok () else .error (.typeConflict p.topic)

/-- The `publish` method: first lazily detaches the listener when it is
attached and timed out; then converts the raw message into an instance
(propagating conversion errors); then sends the instance - through
`publish_override` when the listener is (still) attached, directly to the
transport otherwise.  Returns the publisher state (mutations persist even
when conversion raises) together with the result: the messages sent to the
transport, or the error. -/
def publish (env : RosEnv) (p : MultiPublisher) (msg : String) (now : Nat) :
    MultiPublisher × Except PubError (List String) :=
  let p :=
    if p.listener.attached && p.listener.timed_out now then
      { p with listener := p.listener.detach }
    else p
  match env.populate_instance msg p.msg_class with
  | .error e => (p, .error e)
  | .ok inst =>
    if p.listener.attached then
      let (l, out) := p.listener.publish_override now inst
      ({ p with listener := l }, .ok out)
    else (p, .ok [inst])

/-- The `register_client` method: `self.clients[client_id] = True` - a no-op
on the key set when the id is already present, otherwise appends it. -/
def register_client (p : MultiPublisher) (client_id : String) : MultiPublisher :=
  if client_id ∈ p.clients then p
  else { p with clients := p.clients ++ [client_id] }

/-- The `unregister_client` method: deletes the id if present, otherwise does
nothing. -/
def unregister_client (p : MultiPublisher) (client_id : String) : MultiPublisher :=
  { p with clients := p.clients.erase client_id }

/-- The `has_clients` method: `len(self.clients) != 0`. -/
def has_clients (p : MultiPublisher) : Bool :=
  decide (p.clients.length ≠ 0)

end MultiPublisher

/-- Lookup in the registry's dict, modelled as an association list (first
match; the registry keeps keys unique). -/
def lookupPub : List (String × MultiPublisher) → String → Option MultiPublisher
  | [], _ => none
  | (k, p) :: rest, topic => if k = topic then some p else lookupPub rest topic

/-- Dict assignment `d[topic] = p` for an existing key: replaces the value at
the key, keeping its position. -/
def setPubL : List (String × MultiPublisher) → String → MultiPublisher →
    List (String × MultiPublisher)
  | [], _, _ => []
  | (k, q) :: rest, topic, p =>
    if k = topic then (k, p) :: setPubL rest topic p
    else (k, q) :: setPubL rest topic p

/-- Dict deletion `del d[topic]`. -/
def removePubL : List (String × MultiPublisher) → String → List (String × MultiPublisher)
  | [], _ => []
  | (k, q) :: rest, topic =>
    if k = topic then removePubL rest topic
    else (k, q) :: removePubL rest topic

/-- State of the `PublisherManager`: the `_publishers` dict and the freshness
counter modelling Python object identity of created `MultiPublisher`s. -/
structure PublisherManager where
  _publishers : List (String × MultiPublisher)
  nextEid : Nat
  deriving DecidableEq, Repr

namespace PublisherManager

/-- Tail of the `register` method, after the find-or-create step: when a type
was supplied, verify it against the found-or-created publisher `p`
(propagating `typeConflict` and loader errors, with the state `m` - which
already contains `p` - unchanged); then add the client. -/
def registerFinish (env : RosEnv) (m : PublisherManager) (topic : String)
    (p : MultiPublisher) (client_id : String) (msg_type : Option String) :
    PublisherManager × Option PubError :=
  match msg_type with
  | some t =>
    match MultiPublisher.verify_type env p t with
    | .error e => (m, some e)
    | .ok _ =>
      (⟨setPubL m._publishers topic (p.register_client client_id), m.nextEid⟩, none)
  | none =>
    (⟨setPubL m._publishers topic (p.register_client client_id), m.nextEid⟩, none)

/-- The `register` method: creates a `MultiPublisher` for the topic when none
exists (a constructor error propagates with the registry unchanged, since the
dict assignment never executes); then verifies the supplied type, if any, and
adds the client.  Returns the new state and `some` error when the call
raises. -/
def register (env : RosEnv) (m : PublisherManager) (client_id topic : String)
    (msg_type : Option String) (now : Nat) : PublisherManager × Option PubError :=
  match lookupPub m._publishers topic with
  | none =>
    match MultiPublisher.init env m.nextEid topic msg_type now with
    | .error e => (m, some e)
    | .ok p =>
      registerFinish env ⟨(topic, p) :: m._publishers, m.nextEid + 1⟩ topic p
        client_id msg_type
  | some p => registerFinish env m topic p client_id msg_type

/-- The `unregister` method: a no-op when the topic has no publisher;
otherwise removes the client, and when no clients remain unregisters the
publisher (clearing its client set) and deletes the registry entry. -/
def unregister (m : PublisherManager) (client_id topic : String) : PublisherManager :=
  match lookupPub m._publishers topic with
  | none => m
  | some p =>
    let p := p.unregister_client client_id
    if p.has_clients then ⟨setPubL m._publishers topic p, m.nextEid⟩
    else
      let _closed := p.unregister
      ⟨removePubL m._publishers topic, m.nextEid⟩

/-- The `unregister_all` method: unregisters the client from every topic in
the registry (iterating over a snapshot of the key list, as Python's
`dict.keys()` provides). -/
def unregister_all (m : PublisherManager) (client_id : String) : PublisherManager :=
  (m._publishers.map Prod.fst).foldl (fun acc topic => acc.unregister client_id topic) m

/-- The `publish` method: implicitly registers the client on the topic with
no supplied type (a registration error propagates with the registry in
whatever state registration left it), then publishes through the topic's
publisher.  The `none` lookup branch is unreachable: successful registration
guarantees the key exists (Python would raise `KeyError` there). -/
def publish (env : RosEnv) (m : PublisherManager) (client_id topic msg : String)
    (now : Nat) : PublisherManager × Except PubError (List String) :=
  match register env m client_id topic none now with
  | (m', some e) => (m', .error e)
  | (m', none) =>
    match lookupPub m'._publishers topic with
    | none => (m', .error (.topicNotEstablished topic))
    | some p =>
      let (p', r) := MultiPublisher.publish env p msg now
      (⟨setPubL m'._publishers topic p', m'.nextEid⟩, r)

end PublisherManager

/-! ### Event traces over one consistency listener

`BufEvent` records the two external stimuli a listener reacts to: an outgoing
publish (`send`, routed through `publish_override`) and a new subscriber
connection (`connect`, routed through `peer_subscribe`).  `BufState`
accumulates, besides the listener state, the transport log and - per connect
event - the list of messages replayed to that consumer. -/

/-- An external stimulus for a consistency listener, tagged with the time at
which it occurs. -/
inductive BufEvent where
  | send (msg : String) (t : Nat)
  | connect (consumer : Nat) (t : Nat)
  deriving DecidableEq, Repr

/-- Listener state plus observation logs: all messages forwarded to the
transport, and for each connect event the consumer id with the messages
replayed to it. -/
structure BufState where
  listener : PublisherConsistencyListener
  transport : List String
  replays : List (Nat × List String)
  deriving DecidableEq, Repr

/-- One step of the listener under an external stimulus, exactly as the
source routes it: a send goes through `publish_override`, a connection event
through `peer_subscribe` (which replays only to the connecting consumer and
mutates nothing). -/
def stepBuf (s : BufState) : BufEvent → BufState
  | .send msg t =>
    let (l, out) := s.listener.publish_override t msg
    { s with listener := l, transport := s.transport ++ out }
  | .connect c t =>
    { s with replays := s.replays ++ [(c, s.listener.peer_subscribe t)] }

/-- The state right after `attach` at time `t0`: fresh buffer, no
observations yet. -/
def initBuf (t0 : Nat) : BufState :=
  { listener := PublisherConsistencyListener.attach t0, transport := [], replays := [] }

/-- Run a listener attached at time `t0` through a list of events. -/
def runBuf (t0 : Nat) (events : List BufEvent) : BufState :=
  events.foldl stepBuf (initBuf t0)

/-- Whether time `t` lies inside the buffering window of a listener attached
at `t0` (the negation of `timed_out`). -/
def inWindow (t0 t : Nat) : Bool :=
  decide (t - t0 ≤ PublisherConsistencyListener.timeout)

/-- The messages of the send events that fall inside the buffering window,
in event order. -/
def inWindowSends (t0 : Nat) : List BufEvent → List String
  | [] => []
  | .send msg t :: rest =>
    if inWindow t0 t then msg :: inWindowSends t0 rest else inWindowSends t0 rest
  | .connect _ _ :: rest => inWindowSends t0 rest

/-- The messages of all send events, in event order. -/
def allSends : List BufEvent → List String
  | [] => []
  | .send msg _ :: rest => msg :: allSends rest
  | .connect _ _ :: rest => allSends rest

/-! ### Operation traces over the registry -/

/-- A caller-facing registry operation. -/
inductive MgrOp where
  | reg (client topic : String) (msg_type : Option String) (t : Nat)
  | pub (client topic msg : String) (t : Nat)
  | unreg (client topic : String)
  | unregAll (client : String)
  deriving DecidableEq, Repr

/-- One registry operation applied to the manager state (errors propagate to
the caller; the state is whatever the call left behind). -/
def stepMgr (env : RosEnv) (m : PublisherManager) : MgrOp → PublisherManager
  | .reg c tp mt t => (PublisherManager.register env m c tp mt t).1
  | .pub c tp msg t => (PublisherManager.publish env m c tp msg t).1
  | .unreg c tp => PublisherManager.unregister m c tp
  | .unregAll c => PublisherManager.unregister_all m c

/-- Run the manager through a list of operations. -/
def runMgr (env : RosEnv) (m : PublisherManager) (ops : List MgrOp) : PublisherManager :=
  ops.foldl (stepMgr env) m

/-- Well-formedness of a manager state: the dict has no duplicate keys, and
every publisher's client list has no duplicate ids.  Both hold of every
state reachable from the empty registry. -/
def WF (m : PublisherManager) : Prop :=
  (m._publishers.map Prod.fst).Nodup ∧ ∀ e ∈ m._publishers, e.2.clients.Nodup

instance (m : PublisherManager) : Decidable (WF m) := by
  unfold WF; infer_instance

/-- The registry maps channel `C` to a live endpoint with identity `e`:
the lookup succeeds, the endpoint is the same object (same `eid`), and its
client set is non-empty (`has_clients` is true). -/
def goodAt (m : PublisherManager) (C : String) (e : Nat) : Prop :=
  ∃ p, lookupPub m._publishers C = some p ∧ p.eid = e ∧ p.clients ≠ []

/-- The number of registry entries for channel `C`. -/
def countKey (m : PublisherManager) (C : String) : Nat :=
  (m._publishers.map Prod.fst).count C

/-! ### Association-list lemmas -/

theorem lookupPub_eq_none_iff (l : List (String × MultiPublisher)) (tp : String) :
    lookupPub l tp = none ↔ tp ∉ l.map Prod.fst := by
  induction l with
  | nil => simp [lookupPub]
  | cons e rest ih =>
    obtain ⟨k, p⟩ := e
    by_cases h : k = tp <;> simp [lookupPub, h, ih, Ne.symm]

theorem lookupPub_setPubL_self (l : List (String × MultiPublisher)) (tp : String)
    (p : MultiPublisher) :
    lookupPub (setPubL l tp p) tp = (lookupPub l tp).map (fun _ => p) := by
  induction l with
  | nil => simp [lookupPub, setPubL]
  | cons e rest ih =>
    obtain ⟨k, q⟩ := e
    by_cases h : k = tp <;> simp [lookupPub, setPubL, h, ih]

theorem lookupPub_setPubL_ne (l : List (String × MultiPublisher)) (tp tp' : String)
    (p : MultiPublisher) (h : tp' ≠ tp) :
    lookupPub (setPubL l tp p) tp' = lookupPub l tp' := by
  induction l with
  | nil => simp [setPubL]
  | cons e rest ih =>
    obtain ⟨k, q⟩ := e
    by_cases hk : k = tp
    · subst hk
      simp [lookupPub, setPubL, Ne.symm h, ih]
    · by_cases hk' : k = tp' <;> simp [lookupPub, setPubL, hk, hk', h, ih]

theorem lookupPub_removePubL_self (l : List (String × MultiPublisher)) (tp : String) :
    lookupPub (removePubL l tp) tp = none := by
  induction l with
  | nil => simp [lookupPub, removePubL]
  | cons e rest ih =>
    obtain ⟨k, q⟩ := e
    by_cases h : k = tp <;> simp [lookupPub, removePubL, h, ih]

theorem lookupPub_removePubL_ne (l : List (String × MultiPublisher)) (tp tp' : String)
    (h : tp' ≠ tp) :
    lookupPub (removePubL l tp) tp' = lookupPub l tp' := by
  induction l with
  | nil => simp [removePubL]
  | cons e rest ih =>
    obtain ⟨k, q⟩ := e
    by_cases hk : k = tp
    · subst hk
      simp [lookupPub, removePubL, Ne.symm h, ih]
    · by_cases hk' : k = tp' <;> simp [lookupPub, removePubL, hk, hk', h, ih]

theorem setPubL_of_not_mem (l : List (String × MultiPublisher)) (tp : String)
    (p : MultiPublisher) (h : tp ∉ l.map Prod.fst) : setPubL l tp p = l := by
  induction l with
  | nil => simp [setPubL]
  | cons e rest ih =>
    obtain ⟨k, q⟩ := e
    simp only [List.map_cons, List.mem_cons] at h
    push_neg at h
    simp [setPubL, Ne.symm h.1, ih h.2]

theorem setPubL_lookup_self (l : List (String × MultiPublisher)) (tp : String)
    (p : MultiPublisher) (hnd : (l.map Prod.fst).Nodup)
    (h : lookupPub l tp = some p) : setPubL l tp p = l := by
  induction l with
  | nil => simp [setPubL]
  | cons e rest ih =>
    obtain ⟨k, q⟩ := e
    simp only [List.map_cons, List.nodup_cons] at hnd
    by_cases hk : k = tp
    · subst hk
      simp only [lookupPub, if_true, eq_self_iff_true] at h
      simp only [Option.some.injEq] at h
      subst h
      simp [setPubL, setPubL_of_not_mem _ _ _ hnd.1]
    · simp only [lookupPub, if_neg hk] at h
      simp [setPubL, hk, ih hnd.2 h]

theorem map_fst_setPubL (l : List (String × MultiPublisher)) (tp : String)
    (p : MultiPublisher) : (setPubL l tp p).map Prod.fst = l.map Prod.fst := by
  induction l with
  | nil => simp [setPubL]
  | cons e rest ih =>
    obtain ⟨k, q⟩ := e
    by_cases h : k = tp <;> simp [setPubL, h, ih]

theorem removePubL_sublist (l : List (String × MultiPublisher)) (tp : String) :
    List.Sublist (removePubL l tp) l := by
  induction l with
  | nil => simp [removePubL]
  | cons e rest ih =>
    obtain ⟨k, q⟩ := e
    by_cases h : k = tp
    · simpa [removePubL, h] using ih.cons (k, q)
    · simpa [removePubL, h] using ih.cons₂ (k, q)

theorem mem_setPubL (l : List (String × MultiPublisher)) (tp : String)
    (p : MultiPublisher) (e : String × MultiPublisher) (he : e ∈ setPubL l tp p) :
    e ∈ l ∨ e = (tp, p) := by
  induction l with
  | nil => simp [setPubL] at he
  | cons a rest ih =>
    obtain ⟨k, q⟩ := a
    by_cases h : k = tp
    · subst h
      simp only [setPubL, if_true, eq_self_iff_true, List.mem_cons] at he
      rcases he with h1 | h1
      · exact Or.inr h1
      · rcases ih h1 with h2 | h2
        · exact Or.inl (List.mem_cons_of_mem _ h2)
        · exact Or.inr h2
    · simp only [setPubL, if_neg h, List.mem_cons] at he
      rcases he with h1 | h1
      · exact Or.inl (by simp [h1])
      · rcases ih h1 with h2 | h2
        · exact Or.inl (List.mem_cons_of_mem _ h2)
        · exact Or.inr h2

theorem mem_removePubL (l : List (String × MultiPublisher)) (tp : String)
    (e : String × MultiPublisher) (he : e ∈ removePubL l tp) : e ∈ l :=
  (removePubL_sublist l tp).mem he

/-! ### Listener-trace lemmas -/

theorem timed_out_eq_not_inWindow (l : PublisherConsistencyListener) (now : Nat) :
    l.timed_out now = !inWindow l.established_time now := by
  simp only [PublisherConsistencyListener.timed_out, inWindow, ← decide_not]
  exact decide_eq_decide.mpr (by omega)

theorem stepBuf_listener_established_time (s : BufState) (ev : BufEvent) :
    (stepBuf s ev).listener.established_time = s.listener.established_time := by
  cases ev with
  | send msg t =>
    simp only [stepBuf, PublisherConsistencyListener.publish_override]
    by_cases h : s.listener.timed_out t = true <;> simp [h]
  | connect c t => rfl

theorem stepBuf_listener_attached (s : BufState) (ev : BufEvent) :
    (stepBuf s ev).listener.attached = s.listener.attached := by
  cases ev with
  | send msg t =>
    simp only [stepBuf, PublisherConsistencyListener.publish_override]
    by_cases h : s.listener.timed_out t = true <;> simp [h]
  | connect c t => rfl

theorem foldl_stepBuf_msg_buffer (evs : List BufEvent) (s : BufState) :
    (evs.foldl stepBuf s).listener.msg_buffer =
      s.listener.msg_buffer ++ inWindowSends s.listener.established_time evs := by
  induction evs generalizing s with
  | nil => simp [inWindowSends]
  | cons ev rest ih =>
    cases ev with
    | send msg t =>
      rw [List.foldl_cons, ih, stepBuf_listener_established_time]
      by_cases h : inWindow s.listener.established_time t = true
      · simp [stepBuf, PublisherConsistencyListener.publish_override,
          timed_out_eq_not_inWindow, h, inWindowSends]
      · simp only [Bool.not_eq_true] at h
        simp [stepBuf, PublisherConsistencyListener.publish_override,
          timed_out_eq_not_inWindow, h, inWindowSends]
    | connect c t =>
      rw [List.foldl_cons, ih]
      simp [stepBuf, inWindowSends]

theorem foldl_stepBuf_transport (evs : List BufEvent) (s : BufState) :
    (evs.foldl stepBuf s).transport = s.transport ++ allSends evs := by
  induction evs generalizing s with
  | nil => simp [allSends]
  | cons ev rest ih =>
    cases ev with
    | send msg t =>
      rw [List.foldl_cons, ih]
      by_cases h : s.listener.timed_out t = true <;>
        simp [stepBuf, PublisherConsistencyListener.publish_override, h, allSends]
    | connect c t =>
      rw [List.foldl_cons, ih]
      simp [stepBuf, allSends]

/-- Specification-side characterization of the replay log: given the attach
time and the buffer contents so far, the replay delivered at each connect
event is the buffer snapshot if the event falls inside the window, and
nothing otherwise. -/
def replaysFrom (t0 : Nat) (buf : List String) : List BufEvent → List (Nat × List String)
  | [] => []
  | .send msg t :: rest =>
    replaysFrom t0 (if inWindow t0 t then buf ++ [msg] else buf) rest
  | .connect c t :: rest =>
    (c, if inWindow t0 t then buf else []) :: replaysFrom t0 buf rest

theorem foldl_stepBuf_replays (evs : List BufEvent) (s : BufState) :
    (evs.foldl stepBuf s).replays =
      s.replays ++ replaysFrom s.listener.established_time s.listener.msg_buffer evs := by
  induction evs generalizing s with
  | nil => simp [replaysFrom]
  | cons ev rest ih =>
    cases ev with
    | send msg t =>
      rw [List.foldl_cons, ih, stepBuf_listener_established_time]
      by_cases h : inWindow s.listener.established_time t = true
      · simp [stepBuf, PublisherConsistencyListener.publish_override,
          timed_out_eq_not_inWindow, h, replaysFrom]
      · simp only [Bool.not_eq_true] at h
        simp [stepBuf, PublisherConsistencyListener.publish_override,
          timed_out_eq_not_inWindow, h, replaysFrom]
    | connect c t =>
      rw [List.foldl_cons, ih]
      by_cases h : inWindow s.listener.established_time t = true
      · simp [stepBuf, PublisherConsistencyListener.peer_subscribe,
          timed_out_eq_not_inWindow, h, replaysFrom]
      · simp only [Bool.not_eq_true] at h
        simp [stepBuf, PublisherConsistencyListener.peer_subscribe,
          timed_out_eq_not_inWindow, h, replaysFrom]

theorem runBuf_listener_established_time (t0 : Nat) (evs : List BufEvent) :
    (runBuf t0 evs).listener.established_time = t0 := by
  have h : ∀ (l : List BufEvent) (s : BufState),
      (l.foldl stepBuf s).listener.established_time = s.listener.established_time := by
    intro l
    induction l with
    | nil => intro s; rfl
    | cons ev rest ih =>
      intro s
      rw [List.foldl_cons, ih, stepBuf_listener_established_time]
  exact h evs (initBuf t0)

theorem runBuf_msg_buffer (t0 : Nat) (evs : List BufEvent) :
    (runBuf t0 evs).listener.msg_buffer = inWindowSends t0 evs := by
  have := foldl_stepBuf_msg_buffer evs (initBuf t0)
  simpa [runBuf, initBuf, PublisherConsistencyListener.attach] using this

theorem runBuf_transport (t0 : Nat) (evs : List BufEvent) :
    (runBuf t0 evs).transport = allSends evs := by
  have := foldl_stepBuf_transport evs (initBuf t0)
  simpa [runBuf, initBuf] using this

/-! ### MultiPublisher lemmas -/

namespace MultiPublisher

theorem register_client_mem (p : MultiPublisher) (c : String) :
    c ∈ (p.register_client c).clients := by
  unfold register_client
  by_cases h : c ∈ p.clients <;> simp [h]

theorem register_client_eid (p : MultiPublisher) (c : String) :
    (p.register_client c).eid = p.eid := by
  unfold register_client
  by_cases h : c ∈ p.clients <;> simp [h]

theorem register_client_ne_nil (p : MultiPublisher) (c : String) :
    (p.register_client c).clients ≠ [] := by
  intro hnil
  have := register_client_mem p c
  rw [hnil] at this
  exact absurd this (List.not_mem_nil c)

theorem register_client_of_mem (p : MultiPublisher) (c : String) (h : c ∈ p.clients) :
    p.register_client c = p := by
  unfold register_client
  simp [h]

theorem register_client_msg_class (p : MultiPublisher) (c : String) :
    (p.register_client c).msg_class = p.msg_class := by
  unfold register_client
  by_cases h : c ∈ p.clients <;> simp [h]

theorem register_client_listener (p : MultiPublisher) (c : String) :
    (p.register_client c).listener = p.listener := by
  unfold register_client
  by_cases h : c ∈ p.clients <;> simp [h]

theorem register_client_of_nil (p : MultiPublisher) (c : String)
    (h : p.clients = []) : (p.register_client c).clients = [c] := by
  unfold register_client
  simp [h]

theorem register_client_nodup (p : MultiPublisher) (c : String)
    (h : p.clients.Nodup) : (p.register_client c).clients.Nodup := by
  unfold register_client
  by_cases hc : c ∈ p.clients
  · simpa [hc] using h
  · simp [hc, List.nodup_append, h]

theorem publish_fst (env : RosEnv) (p : MultiPublisher) (msg : String) (now : Nat) :
    ∃ l, (publish env p msg now).1 = { p with listener := l } := by
  unfold publish
  by_cases h : (p.listener.attached && p.listener.timed_out now) = true
  · simp only [h, if_true]
    cases hp : env.populate_instance msg p.msg_class with
    | error e => exact ⟨p.listener.detach, by simp [hp]⟩
    | ok inst =>
      refine ⟨p.listener.detach, ?_⟩
      simp [hp, PublisherConsistencyListener.detach]
  · simp only [h, Bool.false_eq_true, if_false]
    cases hp : env.populate_instance msg p.msg_class
    · simp [hp]
      exact ⟨p.listener, rfl⟩
    · by_cases ha : p.listener.attached = true <;> simp [hp, ha]
      exact ⟨p.listener, rfl⟩

theorem publish_fst_eid (env : RosEnv) (p : MultiPublisher) (msg : String) (now : Nat) :
    (publish env p msg now).1.eid = p.eid := by
  obtain ⟨l, hl⟩ := publish_fst env p msg now
  rw [hl]

theorem publish_fst_clients (env : RosEnv) (p : MultiPublisher) (msg : String) (now : Nat) :
    (publish env p msg now).1.clients = p.clients := by
  obtain ⟨l, hl⟩ := publish_fst env p msg now
  rw [hl]

theorem verify_type_eq_ok_iff (env : RosEnv) (p : MultiPublisher) (T : String) :
    verify_type env p T = .ok () ↔ env.get_message_class T = .ok p.msg_class := by
  unfold verify_type
  cases h : env.get_message_class T with
  | error e => simp
  | ok K => by_cases hk : K = p.msg_class <;> simp [hk]

theorem init_ok_fields (env : RosEnv) (eid : Nat) (tp : String) (mt : Option String)
    (now : Nat) (p : MultiPublisher) (h : init env eid tp mt now = .ok p) :
    p.eid = eid ∧ p.topic = tp ∧ p.clients = [] ∧
    p.listener = PublisherConsistencyListener.attach now := by
  simp only [init] at h
  split at h
  · simp at h
  · split at h
    · simp at h
    · split at h
      · simp at h
      · simp only [Except.ok.injEq] at h
        subst h
        exact ⟨rfl, rfl, rfl, rfl⟩

theorem init_ok_msg_class (env : RosEnv) (eid : Nat) (tp : String) (mt : Option String)
    (now : Nat) (p : MultiPublisher) (h : init env eid tp mt now = .ok p) :
    ∃ mt', resolvedType (env.get_topic_type tp) mt = some mt' ∧
      env.get_message_class mt' = .ok p.msg_class ∧
      topicTypeConflicts (env.get_topic_type tp) p.msg_class = false := by
  simp only [init] at h
  split at h
  · simp at h
  · rename_i mt' hres
    split at h
    · simp at h
    · rename_i K hcls
      split at h
      · simp at h
      · rename_i hc
        simp only [Except.ok.injEq] at h
        subst h
        exact ⟨mt', hres, hcls, by simpa using hc⟩

theorem init_supplied_msg_class (env : RosEnv) (eid : Nat) (tp T : String)
    (now : Nat) (p : MultiPublisher) (h : init env eid tp (some T) now = .ok p) :
    env.get_message_class T = .ok p.msg_class := by
  obtain ⟨mt', hres, hcls, _⟩ := init_ok_msg_class env eid tp (some T) now p h
  have : mt' = T := by
    simp [resolvedType] at hres
    exact hres.symm
  rw [this] at hcls
  exact hcls

end MultiPublisher

/-! ### PublisherManager lemmas -/

theorem lookupPub_mem (l : List (String × MultiPublisher)) (tp : String)
    (p : MultiPublisher) (h : lookupPub l tp = some p) : (tp, p) ∈ l := by
  induction l with
  | nil => simp [lookupPub] at h
  | cons e rest ih =>
    obtain ⟨k, q⟩ := e
    by_cases hk : k = tp
    · subst hk
      simp only [lookupPub, if_true, eq_self_iff_true] at h
      simp only [Option.some.injEq] at h
      subst h
      exact List.mem_cons_self _ _
    · simp only [lookupPub, if_neg hk] at h
      exact List.mem_cons_of_mem _ (ih h)

theorem lookupPub_mem_keys (l : List (String × MultiPublisher)) (tp : String)
    (p : MultiPublisher) (h : lookupPub l tp = some p) : tp ∈ l.map Prod.fst := by
  by_contra hc
  rw [← lookupPub_eq_none_iff] at hc
  rw [h] at hc
  exact Option.noConfusion hc

namespace PublisherManager

theorem registerFinish_error_state (env : RosEnv) (m : PublisherManager) (tp : String)
    (p : MultiPublisher) (c : String) (mt : Option String) (e : PubError)
    (h : (registerFinish env m tp p c mt).2 = some e) :
    (registerFinish env m tp p c mt).1 = m := by
  unfold registerFinish at h ⊢
  cases mt with
  | none => simp at h
  | some T =>
    cases hv : MultiPublisher.verify_type env p T with
    | error e1 => simp [hv]
    | ok u => simp [hv] at h

theorem registerFinish_ok_state (env : RosEnv) (m : PublisherManager) (tp : String)
    (p : MultiPublisher) (c : String) (mt : Option String)
    (h : (registerFinish env m tp p c mt).2 = none) :
    (registerFinish env m tp p c mt).1 =
      ⟨setPubL m._publishers tp (p.register_client c), m.nextEid⟩ := by
  unfold registerFinish at h ⊢
  cases mt with
  | none => rfl
  | some T =>
    cases hv : MultiPublisher.verify_type env p T with
    | error e1 => simp [hv] at h
    | ok u => simp [hv]

theorem registerFinish_ok_verify (env : RosEnv) (m : PublisherManager) (tp : String)
    (p : MultiPublisher) (c : String) (T : String)
    (h : (registerFinish env m tp p c (some T)).2 = none) :
    env.get_message_class T = .ok p.msg_class := by
  unfold registerFinish at h
  cases hv : MultiPublisher.verify_type env p T with
  | error e1 => simp [hv] at h
  | ok u =>
    cases u
    exact (MultiPublisher.verify_type_eq_ok_iff env p T).mp hv

theorem registerFinish_snd_none (env : RosEnv) (m : PublisherManager) (tp : String)
    (p : MultiPublisher) (c : String) (mt : Option String)
    (hmt : ∀ T, mt = some T → env.get_message_class T = .ok p.msg_class) :
    (registerFinish env m tp p c mt).2 = none := by
  unfold registerFinish
  cases mt with
  | none => rfl
  | some T =>
    have hv : MultiPublisher.verify_type env p T = .ok () :=
      (MultiPublisher.verify_type_eq_ok_iff env p T).mpr (hmt T rfl)
    simp [hv]

theorem register_error_state (env : RosEnv) (m : PublisherManager) (c tp : String)
    (mt : Option String) (t : Nat) (e : PubError)
    (h : (register env m c tp mt t).2 = some e) :
    (register env m c tp mt t).1 = m := by
  unfold register at h ⊢
  cases hl : lookupPub m._publishers tp with
  | some p =>
    simp only [hl] at h ⊢
    exact registerFinish_error_state env m tp p c mt e h
  | none =>
    simp only [hl] at h ⊢
    cases hi : MultiPublisher.init env m.nextEid tp mt t with
    | error e1 => simp [hi]
    | ok p =>
      simp only [hi] at h
      have hmt : ∀ T, mt = some T → env.get_message_class T = .ok p.msg_class := by
        intro T hT
        subst hT
        exact MultiPublisher.init_supplied_msg_class env m.nextEid tp T t p hi
      rw [registerFinish_snd_none env _ tp p c mt hmt] at h
      exact Option.noConfusion h

theorem register_ok_cases (env : RosEnv) (m : PublisherManager) (c tp : String)
    (mt : Option String) (t : Nat)
    (h : (register env m c tp mt t).2 = none) :
    ∃ p0, (∀ T, mt = some T → env.get_message_class T = .ok p0.msg_class) ∧
      lookupPub (register env m c tp mt t).1._publishers tp =
        some (p0.register_client c) ∧
      ((lookupPub m._publishers tp = some p0 ∧
        (register env m c tp mt t).1 =
          ⟨setPubL m._publishers tp (p0.register_client c), m.nextEid⟩) ∨
       (lookupPub m._publishers tp = none ∧
        MultiPublisher.init env m.nextEid tp mt t = .ok p0 ∧
        (register env m c tp mt t).1 =
          ⟨setPubL ((tp, p0) :: m._publishers) tp (p0.register_client c),
           m.nextEid + 1⟩)) := by
  unfold register at h ⊢
  cases hl : lookupPub m._publishers tp with
  | some p =>
    simp only [hl] at h ⊢
    refine ⟨p, ?_, ?_, Or.inl ⟨rfl, ?_⟩⟩
    · intro T hT
      subst hT
      exact registerFinish_ok_verify env m tp p c T h
    · rw [registerFinish_ok_state env m tp p c mt h]
      have hs := lookupPub_setPubL_self m._publishers tp (p.register_client c)
      rw [hl] at hs
      simpa using hs
    · exact registerFinish_ok_state env m tp p c mt h
  | none =>
    simp only [hl] at h ⊢
    cases hi : MultiPublisher.init env m.nextEid tp mt t with
    | error e1 =>
      simp only [hi] at h
      exact Option.noConfusion h
    | ok p =>
      simp only [hi] at h ⊢
      have hmt : ∀ T, mt = some T → env.get_message_class T = .ok p.msg_class := by
        intro T hT
        subst hT
        exact MultiPublisher.init_supplied_msg_class env m.nextEid tp T t p hi
      have hfin := registerFinish_ok_state env
        ⟨(tp, p) :: m._publishers, m.nextEid + 1⟩ tp p c mt
        (registerFinish_snd_none env _ tp p c mt hmt)
      refine ⟨p, hmt, ?_, Or.inr ⟨trivial, rfl, hfin⟩⟩
      rw [hfin]
      have hs := lookupPub_setPubL_self ((tp, p) :: m._publishers) tp
        (p.register_client c)
      simp [lookupPub] at hs
      simpa using hs

theorem register_lookup_ne (env : RosEnv) (m : PublisherManager) (c tp : String)
    (mt : Option String) (t : Nat) (tp' : String) (hne : tp' ≠ tp) :
    lookupPub (register env m c tp mt t).1._publishers tp' =
      lookupPub m._publishers tp' := by
  cases hsnd : (register env m c tp mt t).2 with
  | some e => rw [register_error_state env m c tp mt t e hsnd]
  | none =>
    obtain ⟨p0, _, _, hc | hc⟩ := register_ok_cases env m c tp mt t hsnd
    · rw [hc.2]
      exact lookupPub_setPubL_ne _ _ _ _ hne
    · rw [hc.2.2]
      rw [lookupPub_setPubL_ne _ _ _ _ hne]
      simp [lookupPub, Ne.symm hne]

theorem register_lookup_self (env : RosEnv) (m : PublisherManager) (c tp : String)
    (mt : Option String) (t : Nat)
    (h : (register env m c tp mt t).2 = none) :
    ∃ p0, lookupPub (register env m c tp mt t).1._publishers tp =
        some (p0.register_client c) ∧
      (lookupPub m._publishers tp = some p0 ∨ lookupPub m._publishers tp = none) := by
  obtain ⟨p0, _, hlk, hc | hc⟩ := register_ok_cases env m c tp mt t h
  · exact ⟨p0, hlk, Or.inl hc.1⟩
  · exact ⟨p0, hlk, Or.inr hc.1⟩

theorem has_clients_iff (p : MultiPublisher) :
    p.has_clients = true ↔ p.clients ≠ [] := by
  simp [MultiPublisher.has_clients, List.length_eq_zero]

theorem unregister_client_eid (p : MultiPublisher) (c : String) :
    (p.unregister_client c).eid = p.eid := rfl

theorem unregister_client_clients (p : MultiPublisher) (c : String) :
    (p.unregister_client c).clients = p.clients.erase c := rfl

theorem unregister_of_none (m : PublisherManager) (c tp : String)
    (h : lookupPub m._publishers tp = none) :
    PublisherManager.unregister m c tp = m := by
  unfold PublisherManager.unregister
  simp [h]

theorem unregister_of_keep (m : PublisherManager) (c tp : String) (p : MultiPublisher)
    (h : lookupPub m._publishers tp = some p)
    (hcl : (p.unregister_client c).clients ≠ []) :
    PublisherManager.unregister m c tp =
      ⟨setPubL m._publishers tp (p.unregister_client c), m.nextEid⟩ := by
  unfold PublisherManager.unregister
  simp only [h]
  rw [if_pos ((has_clients_iff _).mpr hcl)]

theorem unregister_of_remove (m : PublisherManager) (c tp : String) (p : MultiPublisher)
    (h : lookupPub m._publishers tp = some p)
    (hcl : (p.unregister_client c).clients = []) :
    PublisherManager.unregister m c tp =
      ⟨removePubL m._publishers tp, m.nextEid⟩ := by
  unfold PublisherManager.unregister
  simp only [h]
  rw [if_neg]
  simp [has_clients_iff, hcl]

theorem unregister_lookup_ne (m : PublisherManager) (c tp tp' : String) (hne : tp' ≠ tp) :
    lookupPub (PublisherManager.unregister m c tp)._publishers tp' =
      lookupPub m._publishers tp' := by
  cases h : lookupPub m._publishers tp with
  | none => rw [unregister_of_none m c tp h]
  | some p =>
    by_cases hcl : (p.unregister_client c).clients = []
    · rw [unregister_of_remove m c tp p h hcl]
      exact lookupPub_removePubL_ne _ _ _ hne
    · rw [unregister_of_keep m c tp p h hcl]
      exact lookupPub_setPubL_ne _ _ _ _ hne

/-! ### Well-formedness preservation -/

theorem wf_setPub (m : PublisherManager) (tp : String) (p : MultiPublisher)
    (hw : WF m) (hp : p.clients.Nodup) :
    WF ⟨setPubL m._publishers tp p, m.nextEid⟩ := by
  constructor
  · rw [map_fst_setPubL]
    exact hw.1
  · intro e he
    rcases mem_setPubL _ _ _ _ he with h1 | h1
    · exact hw.2 e h1
    · rw [h1]
      exact hp

theorem wf_register (env : RosEnv) (m : PublisherManager) (c tp : String)
    (mt : Option String) (t : Nat) (hw : WF m) :
    WF (PublisherManager.register env m c tp mt t).1 := by
  cases hsnd : (PublisherManager.register env m c tp mt t).2 with
  | some e => rw [PublisherManager.register_error_state env m c tp mt t e hsnd]; exact hw
  | none =>
    obtain ⟨p0, _, _, hc | hc⟩ := PublisherManager.register_ok_cases env m c tp mt t hsnd
    · rw [hc.2]
      exact wf_setPub m tp _ hw
        (MultiPublisher.register_client_nodup p0 c (hw.2 _ (lookupPub_mem _ _ _ hc.1)))
    · rw [hc.2.2]
      obtain ⟨_, _, hcl, _⟩ :=
        MultiPublisher.init_ok_fields env m.nextEid tp mt t p0 hc.2.1
      have hkeys : tp ∉ m._publishers.map Prod.fst :=
        (lookupPub_eq_none_iff _ _).mp hc.1
      constructor
      · rw [map_fst_setPubL]
        exact List.nodup_cons.mpr ⟨hkeys, hw.1⟩
      · intro e he
        rcases mem_setPubL _ _ _ _ he with h1 | h1
        · rcases List.mem_cons.mp h1 with h2 | h2
          · rw [h2]
            simp [hcl]
          · exact hw.2 e h2
        · rw [h1]
          exact MultiPublisher.register_client_nodup p0 c (by simp [hcl])

theorem wf_unregister (m : PublisherManager) (c tp : String) (hw : WF m) :
    WF (PublisherManager.unregister m c tp) := by
  cases h : lookupPub m._publishers tp with
  | none => rw [unregister_of_none m c tp h]; exact hw
  | some p =>
    by_cases hcl : (p.unregister_client c).clients = []
    · rw [unregister_of_remove m c tp p h hcl]
      constructor
      · exact hw.1.sublist ((removePubL_sublist _ _).map Prod.fst)
      · intro e he
        exact hw.2 e (mem_removePubL _ _ _ he)
    · rw [unregister_of_keep m c tp p h hcl]
      refine wf_setPub m tp _ hw ?_
      rw [unregister_client_clients]
      exact (hw.2 _ (lookupPub_mem _ _ _ h)).erase c

theorem wf_publish (env : RosEnv) (m : PublisherManager) (c tp msg : String) (t : Nat)
    (hw : WF m) : WF (PublisherManager.publish env m c tp msg t).1 := by
  have hw1 : WF (PublisherManager.register env m c tp none t).1 :=
    wf_register env m c tp none t hw
  unfold PublisherManager.publish
  rcases hreg : PublisherManager.register env m c tp none t with ⟨m1, r⟩
  rw [hreg] at hw1
  cases r with
  | some e => exact hw1
  | none =>
    cases hl : lookupPub m1._publishers tp with
    | none => simp only [hl]; exact hw1
    | some p =>
      simp only [hl]
      refine wf_setPub m1 tp _ hw1 ?_
      rw [MultiPublisher.publish_fst_clients]
      exact hw1.2 _ (lookupPub_mem _ _ _ hl)

theorem wf_unregister_all (m : PublisherManager) (c : String) (hw : WF m) :
    WF (PublisherManager.unregister_all m c) := by
  unfold PublisherManager.unregister_all
  have h : ∀ (ks : List String) (m0 : PublisherManager), WF m0 →
      WF (ks.foldl (fun acc topic => acc.unregister c topic) m0) := by
    intro ks
    induction ks with
    | nil => intro m0 h0; exact h0
    | cons k rest ih =>
      intro m0 h0
      exact ih _ (wf_unregister m0 c k h0)
  exact h _ m hw

theorem wf_stepMgr (env : RosEnv) (m : PublisherManager) (op : MgrOp) (hw : WF m) :
    WF (stepMgr env m op) := by
  cases op with
  | reg c tp mt t => exact wf_register env m c tp mt t hw
  | pub c tp msg t => exact wf_publish env m c tp msg t hw
  | unreg c tp => exact wf_unregister m c tp hw
  | unregAll c => exact wf_unregister_all m c hw

theorem wf_runMgr (env : RosEnv) (m : PublisherManager) (ops : List MgrOp) (hw : WF m) :
    WF (runMgr env m ops) := by
  induction ops generalizing m with
  | nil => exact hw
  | cons op rest ih => exact ih _ (wf_stepMgr env m op hw)

end PublisherManager

/-! ### Endpoint-sharing invariant -/

/-- Whether an operation is a register or publish call (as opposed to an
unregister). -/
def isRegPub : MgrOp → Bool
  | .reg _ _ _ _ => true
  | .pub _ _ _ _ => true
  | .unreg _ _ => false
  | .unregAll _ => false

theorem goodAt_register (env : RosEnv) (m : PublisherManager) (c tp : String)
    (mt : Option String) (t : Nat) (C : String) (e : Nat) (hg : goodAt m C e) :
    goodAt (PublisherManager.register env m c tp mt t).1 C e := by
  obtain ⟨p, hlk, heid, hcl⟩ := hg
  by_cases htp : C = tp
  · subst htp
    cases hsnd : (PublisherManager.register env m c C mt t).2 with
    | some e1 =>
      rw [PublisherManager.register_error_state env m c C mt t e1 hsnd]
      exact ⟨p, hlk, heid, hcl⟩
    | none =>
      obtain ⟨p0, _, _, hc | hc⟩ := PublisherManager.register_ok_cases env m c C mt t hsnd
      · have hpp : p0 = p := by
          rw [hlk] at hc
          exact ((Option.some.injEq _ _).mp hc.1).symm
        rw [hc.2]
        refine ⟨p0.register_client c, ?_, ?_, MultiPublisher.register_client_ne_nil p0 c⟩
        · have hs := lookupPub_setPubL_self m._publishers C (p0.register_client c)
          rw [hc.1] at hs
          simpa using hs
        · rw [MultiPublisher.register_client_eid, hpp]
          exact heid
      · rw [hc.1] at hlk
        exact Option.noConfusion hlk
  · refine ⟨p, ?_, heid, hcl⟩
    rw [PublisherManager.register_lookup_ne env m c tp mt t C htp]
    exact hlk

theorem goodAt_publish (env : RosEnv) (m : PublisherManager) (c tp msg : String)
    (t : Nat) (C : String) (e : Nat) (hg : goodAt m C e) :
    goodAt (PublisherManager.publish env m c tp msg t).1 C e := by
  have hg1 : goodAt (PublisherManager.register env m c tp none t).1 C e :=
    goodAt_register env m c tp none t C e hg
  unfold PublisherManager.publish
  rcases hreg : PublisherManager.register env m c tp none t with ⟨m1, r⟩
  rw [hreg] at hg1
  cases r with
  | some e1 => exact hg1
  | none =>
    cases hl : lookupPub m1._publishers tp with
    | none => simp only [hl]; exact hg1
    | some p =>
      simp only [hl]
      obtain ⟨q, hlk, heid, hcl⟩ := hg1
      by_cases htp : C = tp
      · subst htp
        have hqp : p = q := by
          rw [hl] at hlk
          exact (Option.some.injEq _ _).mp hlk
        refine ⟨(MultiPublisher.publish env p msg t).1, ?_, ?_, ?_⟩
        · have hs := lookupPub_setPubL_self m1._publishers C
            ((MultiPublisher.publish env p msg t).1)
          rw [hl] at hs
          simpa using hs
        · rw [MultiPublisher.publish_fst_eid, hqp]
          exact heid
        · rw [MultiPublisher.publish_fst_clients, hqp]
          exact hcl
      · refine ⟨q, ?_, heid, hcl⟩
        rw [lookupPub_setPubL_ne _ _ _ _ htp]
        exact hlk

theorem goodAt_unreg (m : PublisherManager) (c tp : String) (C : String) (e : Nat)
    (hg : goodAt m C e)
    (hkeep : ∀ p, lookupPub m._publishers C = some p → tp = C →
      p.clients.erase c ≠ []) :
    goodAt (PublisherManager.unregister m c tp) C e := by
  obtain ⟨p, hlk, heid, hcl⟩ := hg
  by_cases htp : tp = C
  · subst htp
    have hk := hkeep p hlk rfl
    rw [PublisherManager.unregister_of_keep m c tp p hlk
      (by rwa [PublisherManager.unregister_client_clients])]
    refine ⟨p.unregister_client c, ?_, ?_, ?_⟩
    · have hs := lookupPub_setPubL_self m._publishers tp (p.unregister_client c)
      rw [hlk] at hs
      simpa using hs
    · rw [PublisherManager.unregister_client_eid]
      exact heid
    · rwa [PublisherManager.unregister_client_clients]
  · refine ⟨p, ?_, heid, hcl⟩
    rw [PublisherManager.unregister_lookup_ne m c tp C (Ne.symm htp)]
    exact hlk

theorem goodAt_runMgr (env : RosEnv) (m : PublisherManager) (C : String) (e : Nat)
    (ops : List MgrOp) (hg : goodAt m C e)
    (hops : ∀ op ∈ ops, isRegPub op = true) :
    goodAt (runMgr env m ops) C e := by
  induction ops generalizing m with
  | nil => exact hg
  | cons op rest ih =>
    have hop := hops op (List.mem_cons_self _ _)
    have hrest : ∀ o ∈ rest, isRegPub o = true := fun o ho =>
      hops o (List.mem_cons_of_mem _ ho)
    simp only [runMgr, List.foldl_cons]
    cases op with
    | reg c tp mt t =>
      exact ih (stepMgr env m (.reg c tp mt t))
        (goodAt_register env m c tp mt t C e hg) hrest
    | pub c tp msg t =>
      exact ih (stepMgr env m (.pub c tp msg t))
        (goodAt_publish env m c tp msg t C e hg) hrest
    | unreg c tp => simp [isRegPub] at hop
    | unregAll c => simp [isRegPub] at hop

theorem countKey_eq_one (m : PublisherManager) (C : String) (e : Nat)
    (hw : WF m) (hg : goodAt m C e) : countKey m C = 1 := by
  obtain ⟨p, hlk, _, _⟩ := hg
  exact List.count_eq_one_of_mem hw.1 (lookupPub_mem_keys _ _ _ hlk)

/-! ### A concrete environment for witnesses and counterexamples -/

/-- A concrete collaborator environment: the channel "/chatter" is
established with type "std_msgs/String"; the loader resolves both the
slashed and the dotted spelling of that type to the same class (as the real
`ros_loader` does for "pkg/Msg" and "pkg.msg.Msg"), knows one further class,
and fails with `unknownMessageType` on anything else; the converter rejects
exactly the payload "bad" with `malformedMessage`. -/
def envA : RosEnv where
  get_topic_type := fun tp =>
    if tp = "/chatter" then some "std_msgs/String" else none
  get_message_class := fun T =>
    if T = "std_msgs/String" then .ok ⟨0, "std_msgs/String"⟩
    else if T = "std_msgs.msg.String" then .ok ⟨0, "std_msgs/String"⟩
    else if T = "geometry_msgs/Twist" then .ok ⟨1, "geometry_msgs/Twist"⟩
    else .error (.unknownMessageType T)
  populate_instance := fun msg _ =>
    if msg = "bad" then .error .malformedMessage else .ok msg

/-- The freshly constructed registry: no publishers, no identities used. -/
def emptyMgr : PublisherManager := ⟨[], 0⟩

/-! ### Claim theorems -/

/-- C5 counterexample: on channel "/chatter" whose established type is
"std_msgs/String", creating the endpoint with the supplied type
"std_msgs.msg.String" - which differs from the established type as an
identifier but resolves to the very same class - succeeds instead of
raising TypeConflict, because the code compares the established type with
the resolved class's `_type`, not with the supplied identifier. -/
theorem c5_counterexample :
    envA.get_topic_type "/chatter" = some "std_msgs/String" ∧
    "std_msgs.msg.String" ≠ "std_msgs/String" ∧
    MultiPublisher.init envA 0 "/chatter" (some "std_msgs.msg.String") 0 =
      .ok { eid := 0, topic := "/chatter", msg_class := ⟨0, "std_msgs/String"⟩,
            clients := [], listener := ⟨true, 0, []⟩ } := by
  decide

/-- C5 (amended): endpoint creation with no supplied type raises
ChannelTypeUnknown exactly when the channel has no established type (it is
never raised when an established type exists, provided the external loader
never raises that error kind itself); with established type T and no
supplied type, creation resolves and uses T; and creation raises
TypeConflict when a supplied type and an established type both exist and
the established type differs from the supplied type's resolved class type
name. -/
theorem c5_type_inference (env : RosEnv) (eid : Nat) (tp : String) (now : Nat) :
    (env.get_topic_type tp = none →
      MultiPublisher.init env eid tp none now = .error (.topicNotEstablished tp))
    ∧ (∀ T, env.get_topic_type tp = some T →
        (∀ s, env.get_message_class T ≠ .error (.topicNotEstablished s)) →
        ∀ s, MultiPublisher.init env eid tp none now ≠ .error (.topicNotEstablished s))
    ∧ (∀ T K, env.get_topic_type tp = some T → env.get_message_class T = .ok K →
        K._type = T →
        MultiPublisher.init env eid tp none now =
          .ok { eid := eid, topic := tp, msg_class := K, clients := [],
                listener := PublisherConsistencyListener.attach now })
    ∧ (∀ S T K, env.get_topic_type tp = some T → env.get_message_class S = .ok K →
        K._type ≠ T →
        MultiPublisher.init env eid tp (some S) now = .error (.typeConflict tp)) := by
  refine ⟨?_, ?_, ?_, ?_⟩
  · intro h
    simp [MultiPublisher.init, MultiPublisher.resolvedType, h]
  · intro T hT hload s hcontra
    simp only [MultiPublisher.init, MultiPublisher.resolvedType, hT] at hcontra
    cases hcls : env.get_message_class T with
    | error e =>
      rw [hcls] at hcontra
      simp only [Except.error.injEq] at hcontra
      exact hload s (by rw [hcls, hcontra])
    | ok K =>
      rw [hcls] at hcontra
      by_cases hc : MultiPublisher.topicTypeConflicts (some T) K = true
      · simp [hc] at hcontra
      · simp only [Bool.not_eq_true] at hc
        simp [hc] at hcontra
  · intro T K hT hK hKT
    simp [MultiPublisher.init, MultiPublisher.resolvedType, hT, hK,
      MultiPublisher.topicTypeConflicts, hKT]
  · intro S T K hT hK hKT
    simp [MultiPublisher.init, MultiPublisher.resolvedType, hT, hK,
      MultiPublisher.topicTypeConflicts]
    intro hcontra
    exact absurd hcontra.symm (by simpa using hKT)

/-- C5 witness: the amended claim evaluated in the concrete environment:
inference uses the established type of "/chatter", and registering with no
type on the unestablished channel "/nope" raises ChannelTypeUnknown. -/
theorem c5_witness :
    envA.get_topic_type "/chatter" = some "std_msgs/String" ∧
    envA.get_message_class "std_msgs/String" = .ok ⟨0, "std_msgs/String"⟩ ∧
    MultiPublisher.init envA 0 "/chatter" none 0 =
      .ok { eid := 0, topic := "/chatter", msg_class := ⟨0, "std_msgs/String"⟩,
            clients := [], listener := PublisherConsistencyListener.attach 0 } ∧
    envA.get_topic_type "/nope" = none ∧
    MultiPublisher.init envA 0 "/nope" none 0 =
      .error (.topicNotEstablished "/nope") :=
  ⟨by decide, by decide,
   (c5_type_inference envA 0 "/chatter" 0).2.2.1 "std_msgs/String"
     ⟨0, "std_msgs/String"⟩ (by decide) (by decide) (by decide),
   by decide,
   (c5_type_inference envA 0 "/nope" 0).1 (by decide)⟩

/-- C4 counterexample: after registering client "A" on "/chatter" with type
"std_msgs/String", registering client "B" with the textually different type
"std_msgs.msg.String" does NOT raise TypeConflict: it succeeds and adds the
client, because `verify_type` compares resolved classes, not the supplied
identifiers. -/
theorem c4_counterexample :
    "std_msgs.msg.String" ≠ "std_msgs/String" ∧
    (PublisherManager.register envA emptyMgr "A" "/chatter"
      (some "std_msgs/String") 0).2 = none ∧
    (PublisherManager.register envA
      (PublisherManager.register envA emptyMgr "A" "/chatter"
        (some "std_msgs/String") 0).1
      "B" "/chatter" (some "std_msgs.msg.String") 0).2 = none ∧
    lookupPub (PublisherManager.register envA
      (PublisherManager.register envA emptyMgr "A" "/chatter"
        (some "std_msgs/String") 0).1
      "B" "/chatter" (some "std_msgs.msg.String") 0).1._publishers "/chatter" =
      some { eid := 0, topic := "/chatter", msg_class := ⟨0, "std_msgs/String"⟩,
             clients := ["A", "B"], listener := ⟨true, 0, []⟩ } := by
  decide

/-- C4 (amended): after a successful register with type T1 on a channel, a
second register whose supplied type resolves to a different message class
than the endpoint's raises TypeConflict and leaves the registry unchanged
(in particular the second client is not added), while a second register
with the same type T1 succeeds and adds the client. -/
theorem c4_type_consistency (env : RosEnv) (m : PublisherManager)
    (c1 c2 tp T1 T2 : String) (K1 K2 : MsgClass) (t1 t2 : Nat)
    (h1 : (PublisherManager.register env m c1 tp (some T1) t1).2 = none)
    (hK1 : env.get_message_class T1 = .ok K1)
    (hK2 : env.get_message_class T2 = .ok K2) :
    (K2 ≠ K1 →
      (∃ s, (PublisherManager.register env
          (PublisherManager.register env m c1 tp (some T1) t1).1
          c2 tp (some T2) t2).2 = some (.typeConflict s))
      ∧ (PublisherManager.register env
          (PublisherManager.register env m c1 tp (some T1) t1).1
          c2 tp (some T2) t2).1 =
        (PublisherManager.register env m c1 tp (some T1) t1).1)
    ∧ ((PublisherManager.register env
          (PublisherManager.register env m c1 tp (some T1) t1).1
          c2 tp (some T1) t2).2 = none
       ∧ ∃ p, lookupPub (PublisherManager.register env
            (PublisherManager.register env m c1 tp (some T1) t1).1
            c2 tp (some T1) t2).1._publishers tp = some p
          ∧ c2 ∈ p.clients ∧ p.msg_class = K1) := by
  obtain ⟨p0, hmt, hlk1, _⟩ :=
    PublisherManager.register_ok_cases env m c1 tp (some T1) t1 h1
  have hK1p : p0.msg_class = K1 := by
    have hx := hmt T1 rfl
    rw [hK1] at hx
    exact ((Except.ok.injEq _ _).mp hx).symm
  obtain ⟨m1, hm1⟩ : ∃ x, (PublisherManager.register env m c1 tp (some T1) t1).1 = x :=
    ⟨_, rfl⟩
  rw [hm1] at hlk1
  rw [hm1]
  constructor
  · intro hne
    have hcond : ¬ (K2 = (p0.register_client c1).msg_class) := by
      rw [MultiPublisher.register_client_msg_class, hK1p]
      exact hne
    have hv : MultiPublisher.verify_type env (p0.register_client c1) T2 =
        .error (.typeConflict (p0.register_client c1).topic) := by
      unfold MultiPublisher.verify_type
      simp only [hK2]
      rw [if_neg hcond]
    have hreg2 : PublisherManager.register env m1 c2 tp (some T2) t2 =
        (m1, some (.typeConflict (p0.register_client c1).topic)) := by
      unfold PublisherManager.register
      simp only [hlk1]
      unfold PublisherManager.registerFinish
      simp only [hv]
    exact ⟨⟨_, by rw [hreg2]⟩, by rw [hreg2]⟩
  · have hv : MultiPublisher.verify_type env (p0.register_client c1) T1 = .ok () :=
      (MultiPublisher.verify_type_eq_ok_iff env _ T1).mpr
        (by rw [MultiPublisher.register_client_msg_class, hK1p]; exact hK1)
    have hreg2 : PublisherManager.register env m1 c2 tp (some T1) t2 =
        (⟨setPubL m1._publishers tp ((p0.register_client c1).register_client c2),
          m1.nextEid⟩, none) := by
      unfold PublisherManager.register
      simp only [hlk1]
      unfold PublisherManager.registerFinish
      simp only [hv]
    constructor
    · rw [hreg2]
    · refine ⟨(p0.register_client c1).register_client c2, ?_,
        MultiPublisher.register_client_mem _ _, ?_⟩
      · rw [hreg2]
        have hs := lookupPub_setPubL_self m1._publishers tp
          ((p0.register_client c1).register_client c2)
        rw [hlk1] at hs
        simpa using hs
      · rw [MultiPublisher.register_client_msg_class,
          MultiPublisher.register_client_msg_class, hK1p]

/-- C4 witness: in the concrete environment, after "A" registers
"std_msgs/String" on "/chatter", "B" registering "geometry_msgs/Twist"
(which resolves to a different class) raises TypeConflict, while "B"
registering "std_msgs/String" again succeeds. -/
theorem c4_witness :
    (PublisherManager.register envA emptyMgr "A" "/chatter"
      (some "std_msgs/String") 0).2 = none ∧
    (∃ s, (PublisherManager.register envA
        (PublisherManager.register envA emptyMgr "A" "/chatter"
          (some "std_msgs/String") 0).1
        "B" "/chatter" (some "geometry_msgs/Twist") 1).2 =
      some (.typeConflict s)) ∧
    (PublisherManager.register envA
        (PublisherManager.register envA emptyMgr "A" "/chatter"
          (some "std_msgs/String") 0).1
        "B" "/chatter" (some "std_msgs/String") 1).2 = none :=
  ⟨by decide,
   ((c4_type_consistency envA emptyMgr "A" "B" "/chatter" "std_msgs/String"
      "geometry_msgs/Twist" ⟨0, "std_msgs/String"⟩ ⟨1, "geometry_msgs/Twist"⟩ 0 1
      (by decide) (by decide) (by decide)).1 (by decide)).1,
   ((c4_type_consistency envA emptyMgr "A" "B" "/chatter" "std_msgs/String"
      "geometry_msgs/Twist" ⟨0, "std_msgs/String"⟩ ⟨1, "geometry_msgs/Twist"⟩ 0 1
      (by decide) (by decide) (by decide)).2).1⟩

/-- C10: type compatibility is decided on the resolved schema, not the raw
identifier: verifyType accepts any type string that resolves to the
endpoint's own class, and creation accepts a supplied type string whose
resolved class carries the established type name - so a supplied
MessageType string differing textually from the established identifier but
resolving to the same schema is accepted without TypeConflict. -/
theorem c10_resolved_schema_compat (env : RosEnv) (p : MultiPublisher)
    (T2 tp : String) (K : MsgClass) (eid now : Nat)
    (h2 : env.get_message_class T2 = .ok K) :
    (K = p.msg_class → MultiPublisher.verify_type env p T2 = .ok ())
    ∧ (env.get_topic_type tp = some K._type →
        MultiPublisher.init env eid tp (some T2) now =
          .ok { eid := eid, topic := tp, msg_class := K, clients := [],
                listener := PublisherConsistencyListener.attach now }) := by
  constructor
  · intro hKp
    exact (MultiPublisher.verify_type_eq_ok_iff env p T2).mpr (by rw [h2, hKp])
  · intro htt
    simp [MultiPublisher.init, MultiPublisher.resolvedType, htt, h2,
      MultiPublisher.topicTypeConflicts]

/-- C10 witness: "std_msgs.msg.String" differs textually from the
established "std_msgs/String" but resolves to the same class, and both
verifyType and creation accept it. -/
theorem c10_witness :
    envA.get_message_class "std_msgs.msg.String" = .ok ⟨0, "std_msgs/String"⟩ ∧
    "std_msgs.msg.String" ≠ "std_msgs/String" ∧
    MultiPublisher.verify_type envA
      { eid := 0, topic := "/chatter", msg_class := ⟨0, "std_msgs/String"⟩,
        clients := ["A"], listener := ⟨true, 0, []⟩ } "std_msgs.msg.String" = .ok () ∧
    MultiPublisher.init envA 1 "/chatter" (some "std_msgs.msg.String") 3 =
      .ok { eid := 1, topic := "/chatter", msg_class := ⟨0, "std_msgs/String"⟩,
            clients := [], listener := PublisherConsistencyListener.attach 3 } :=
  ⟨by decide, by decide,
   (c10_resolved_schema_compat envA
      { eid := 0, topic := "/chatter", msg_class := ⟨0, "std_msgs/String"⟩,
        clients := ["A"], listener := ⟨true, 0, []⟩ }
      "std_msgs.msg.String" "/chatter" ⟨0, "std_msgs/String"⟩ 1 3 (by decide)).1
     (by decide),
   (c10_resolved_schema_compat envA
      { eid := 0, topic := "/chatter", msg_class := ⟨0, "std_msgs/String"⟩,
        clients := ["A"], listener := ⟨true, 0, []⟩ }
      "std_msgs.msg.String" "/chatter" ⟨0, "std_msgs/String"⟩ 1 3 (by decide)).2
     (by decide)⟩

/-- A concrete endpoint for witnesses: one client "A" on "/chatter", with
its listener attached at time 0 and an empty buffer. -/
def pubA : MultiPublisher :=
  { eid := 0, topic := "/chatter", msg_class := ⟨0, "std_msgs/String"⟩,
    clients := ["A"], listener := ⟨true, 0, []⟩ }

/-- A concrete registry state holding just `pubA`. -/
def mgrA : PublisherManager := ⟨[("/chatter", pubA)], 1⟩

/-- A concrete listener-trace state for witnesses: attached at time 0, one
message "m0" buffered and forwarded, no replays yet. -/
def bufS : BufState := ⟨⟨true, 0, ["m0"]⟩, ["m0"], []⟩

/-- C8: unregister is defensively idempotent and raises nothing (in the
model it is a total function, mirroring the absence of any raise in the
source): it is a no-op when the channel has no endpoint, and a no-op when
the client id is not in the endpoint's client set while other clients keep
the endpoint alive. -/
theorem c8_idempotent_unregister (m : PublisherManager) (c tp : String) :
    (lookupPub m._publishers tp = none → PublisherManager.unregister m c tp = m)
    ∧ (∀ p, WF m → lookupPub m._publishers tp = some p → c ∉ p.clients →
        p.clients ≠ [] → PublisherManager.unregister m c tp = m) := by
  constructor
  · intro h
    exact PublisherManager.unregister_of_none m c tp h
  · intro p hw hlk hc hne
    have hp : p.unregister_client c = p := by
      unfold MultiPublisher.unregister_client
      rw [List.erase_of_not_mem hc]
    rw [PublisherManager.unregister_of_keep m c tp p hlk (by rw [hp]; exact hne)]
    rw [hp, setPubL_lookup_self m._publishers tp p hw.1 hlk]

/-- C8 witness: unregistering "B" from the unknown channel "/nope" and from
"/chatter" (where only "A" is registered) both leave the concrete registry
unchanged. -/
theorem c8_witness :
    (lookupPub mgrA._publishers "/nope" = none ∧
     PublisherManager.unregister mgrA "B" "/nope" = mgrA) ∧
    (WF mgrA ∧ lookupPub mgrA._publishers "/chatter" = some pubA ∧
     "B" ∉ pubA.clients ∧ pubA.clients ≠ [] ∧
     PublisherManager.unregister mgrA "B" "/chatter" = mgrA) :=
  ⟨⟨by decide, (c8_idempotent_unregister mgrA "B" "/nope").1 (by decide)⟩,
   ⟨by decide, by decide, by decide, by decide,
    (c8_idempotent_unregister mgrA "B" "/chatter").2 pubA (by decide) (by decide)
      (by decide) (by decide)⟩⟩

/-- C7: detachment of the buffer happens only from the publish path: a
publish that finds the listener attached and timed out detaches it before
sending (afterwards the attached flag is false, the buffer is untouched,
and on successful conversion the instance goes directly to the transport),
while a consumer-connection event never changes the listener state - when
timed out it only skips replay (delivering nothing). -/
theorem c7_detach_only_on_publish (env : RosEnv) (p : MultiPublisher)
    (msg : String) (now : Nat) (s : BufState) (cn t : Nat)
    (ha : p.listener.attached = true) (ht : p.listener.timed_out now = true) :
    ((MultiPublisher.publish env p msg now).1.listener.attached = false
     ∧ (MultiPublisher.publish env p msg now).1.listener.msg_buffer =
         p.listener.msg_buffer
     ∧ ∀ inst, env.populate_instance msg p.msg_class = .ok inst →
         (MultiPublisher.publish env p msg now).2 = .ok [inst])
    ∧ ((stepBuf s (.connect cn t)).listener = s.listener
       ∧ (s.listener.timed_out t = true →
           (stepBuf s (.connect cn t)).replays = s.replays ++ [(cn, [])])) := by
  have hc : (p.listener.attached && p.listener.timed_out now) = true := by
    rw [ha, ht]
    rfl
  constructor
  · refine ⟨?_, ?_, ?_⟩
    · unfold MultiPublisher.publish
      simp only [hc, if_true]
      cases hp : env.populate_instance msg p.msg_class <;>
        simp [hp, PublisherConsistencyListener.detach]
    · unfold MultiPublisher.publish
      simp only [hc, if_true]
      cases hp : env.populate_instance msg p.msg_class <;>
        simp [hp, PublisherConsistencyListener.detach]
    · intro inst hinst
      unfold MultiPublisher.publish
      simp only [hc, if_true]
      simp [hinst, PublisherConsistencyListener.detach]
  · refine ⟨rfl, ?_⟩
    intro hto
    simp [stepBuf, PublisherConsistencyListener.peer_subscribe, hto]

/-- C7 witness: at time 5 the listener of `pubA` (attached at 0, timeout 1)
is timed out; publishing detaches and sends directly, and a connection
event at time 9 on the concrete trace state leaves the listener unchanged
and replays nothing. -/
theorem c7_witness :
    pubA.listener.attached = true ∧ pubA.listener.timed_out 5 = true ∧
    (MultiPublisher.publish envA pubA "x" 5).1.listener.attached = false ∧
    (MultiPublisher.publish envA pubA "x" 5).1.listener.msg_buffer =
      pubA.listener.msg_buffer ∧
    (MultiPublisher.publish envA pubA "x" 5).2 = .ok ["x"] ∧
    (stepBuf bufS (.connect 1 9)).listener = bufS.listener ∧
    (stepBuf bufS (.connect 1 9)).replays = bufS.replays ++ [(1, [])] :=
  ⟨by decide, by decide,
   ((c7_detach_only_on_publish envA pubA "x" 5 bufS 1 9 (by decide) (by decide)).1).1,
   ((c7_detach_only_on_publish envA pubA "x" 5 bufS 1 9 (by decide) (by decide)).1).2.1,
   ((c7_detach_only_on_publish envA pubA "x" 5 bufS 1 9 (by decide) (by decide)).1).2.2
     "x" (by decide),
   ((c7_detach_only_on_publish envA pubA "x" 5 bufS 1 9 (by decide) (by decide)).2).1,
   ((c7_detach_only_on_publish envA pubA "x" 5 bufS 1 9 (by decide) (by decide)).2).2
     (by decide)⟩

/-- C2: over any event sequence on one listener attached at time t0: the
buffer holds exactly the in-window sends, in publish order (so a send while
not timed out is appended and one after the window is not buffered); every
send is forwarded to the transport unconditionally; and a consumer
connecting at time t gets as its replay - delivered only to it, recorded
once and never altered by later events - exactly the messages buffered
before its connection when t is inside the window, and nothing when the
window has expired. -/
theorem c2_buffering_window (t0 t : Nat) (c : Nat)
    (events pre post : List BufEvent)
    (hsplit : events = pre ++ BufEvent.connect c t :: post) :
    (runBuf t0 events).listener.msg_buffer = inWindowSends t0 events
    ∧ (runBuf t0 events).transport = allSends events
    ∧ ∃ tail, (runBuf t0 events).replays =
        (runBuf t0 pre).replays ++
          ((c, if inWindow t0 t then inWindowSends t0 pre else []) :: tail) := by
  refine ⟨runBuf_msg_buffer t0 events, runBuf_transport t0 events, ?_⟩
  subst hsplit
  have h1 : runBuf t0 (pre ++ BufEvent.connect c t :: post)
      = post.foldl stepBuf (stepBuf (runBuf t0 pre) (BufEvent.connect c t)) := by
    simp [runBuf, List.foldl_append]
  rw [h1, foldl_stepBuf_replays]
  have h2 : (stepBuf (runBuf t0 pre) (BufEvent.connect c t)).replays
      = (runBuf t0 pre).replays ++
          [(c, if inWindow t0 t then inWindowSends t0 pre else [])] := by
    have hest := runBuf_listener_established_time t0 pre
    have hbuf := runBuf_msg_buffer t0 pre
    simp only [stepBuf, PublisherConsistencyListener.peer_subscribe,
      timed_out_eq_not_inWindow, hest, hbuf]
    by_cases h : inWindow t0 t = true <;> simp [h]
  rw [h2, List.append_assoc]
  exact ⟨_, rfl⟩

/-- C2 witness: the trace send "a" at 0, consumer 7 connects at 1, send "b"
at 5 (after the window): the buffer ends holding only "a", the transport
saw "a" then "b", and consumer 7's replay entry is exactly ["a"]. -/
theorem c2_witness :
    ([BufEvent.send "a" 0, BufEvent.connect 7 1, BufEvent.send "b" 5] : List BufEvent)
      = [BufEvent.send "a" 0] ++ BufEvent.connect 7 1 :: [BufEvent.send "b" 5] ∧
    ((runBuf 0 [BufEvent.send "a" 0, BufEvent.connect 7 1,
        BufEvent.send "b" 5]).listener.msg_buffer =
      inWindowSends 0 [BufEvent.send "a" 0, BufEvent.connect 7 1, BufEvent.send "b" 5]
    ∧ (runBuf 0 [BufEvent.send "a" 0, BufEvent.connect 7 1,
        BufEvent.send "b" 5]).transport =
      allSends [BufEvent.send "a" 0, BufEvent.connect 7 1, BufEvent.send "b" 5]
    ∧ ∃ tail, (runBuf 0 [BufEvent.send "a" 0, BufEvent.connect 7 1,
        BufEvent.send "b" 5]).replays =
        (runBuf 0 [BufEvent.send "a" 0]).replays ++
          ((7, if inWindow 0 1 then inWindowSends 0 [BufEvent.send "a" 0] else [])
            :: tail)) :=
  ⟨rfl, c2_buffering_window 0 1 7
    [BufEvent.send "a" 0, BufEvent.connect 7 1, BufEvent.send "b" 5]
    [BufEvent.send "a" 0] [BufEvent.send "b" 5] rfl⟩

/-- C3 counterexample: publishing the malformed payload "bad" on the fresh
channel "/chatter" (established type known to the transport) fails with
MalformedMessage, yet the registry - empty before the call - is left with a
newly created endpoint and the registered client: a failed publish does
not restore the prior registry state. -/
theorem c3_counterexample :
    (PublisherManager.publish envA emptyMgr "A" "/chatter" "bad" 0).2 =
      .error .malformedMessage ∧
    lookupPub emptyMgr._publishers "/chatter" = none ∧
    lookupPub (PublisherManager.publish envA emptyMgr "A" "/chatter"
        "bad" 0).1._publishers "/chatter" =
      some { eid := 0, topic := "/chatter", msg_class := ⟨0, "std_msgs/String"⟩,
             clients := ["A"], listener := ⟨true, 0, []⟩ } := by
  decide

/-- C3 (amended): a failed register leaves the registry exactly in its
prior state, for every error kind; a publish whose implicit registration
phase fails likewise leaves the registry unchanged; a publish failing only
later, in message conversion, instead keeps the endpoint and client that
the implicit registration created (see the counterexample). -/
theorem c3_failure_atomicity (env : RosEnv) (m : PublisherManager)
    (c tp msg : String) (mt : Option String) (t : Nat) :
    (∀ e, (PublisherManager.register env m c tp mt t).2 = some e →
       (PublisherManager.register env m c tp mt t).1 = m)
    ∧ (((PublisherManager.register env m c tp none t).2).isSome →
       (PublisherManager.publish env m c tp msg t).1 = m) := by
  constructor
  · intro e h
    exact PublisherManager.register_error_state env m c tp mt t e h
  · intro h
    cases hsnd : (PublisherManager.register env m c tp none t).2 with
    | none => rw [hsnd] at h; simp at h
    | some e =>
      have hst := PublisherManager.register_error_state env m c tp none t e hsnd
      unfold PublisherManager.publish
      rcases hreg : PublisherManager.register env m c tp none t with ⟨m1, r⟩
      have hr : r = some e := by rw [← hsnd, hreg]
      subst hr
      exact (congrArg Prod.fst hreg).symm.trans hst

/-- C3 witness: registering on the unestablished channel "/nope" with no
type fails with ChannelTypeUnknown and leaves the empty registry empty,
and so does the publish that implicitly attempts that registration. -/
theorem c3_witness :
    (PublisherManager.register envA emptyMgr "A" "/nope" none 0).2 =
      some (.topicNotEstablished "/nope") ∧
    (PublisherManager.register envA emptyMgr "A" "/nope" none 0).1 = emptyMgr ∧
    (PublisherManager.publish envA emptyMgr "A" "/nope" "x" 0).1 = emptyMgr :=
  ⟨by decide,
   (c3_failure_atomicity envA emptyMgr "A" "/nope" "x" none 0).1
     (.topicNotEstablished "/nope") (by decide),
   (c3_failure_atomicity envA emptyMgr "A" "/nope" "x" none 0).2 (by decide)⟩

/-- C9: registering an already-present client id is a no-op on the client
set (no multiplicity is tracked): a second identical register is the
identity on the registry, and a single unregister afterwards removes the
client completely - tearing the endpoint down when it was the endpoint's
only client. -/
theorem c9_register_no_multiplicity (env : RosEnv) (m : PublisherManager)
    (c tp : String) (mt : Option String) (t1 t2 : Nat) (hw : WF m)
    (h1 : (PublisherManager.register env m c tp mt t1).2 = none) :
    (∀ p c2, c2 ∈ p.clients → MultiPublisher.register_client p c2 = p)
    ∧ PublisherManager.register env
        (PublisherManager.register env m c tp mt t1).1 c tp mt t2 =
        ((PublisherManager.register env m c tp mt t1).1, none)
    ∧ (∀ p, lookupPub (PublisherManager.register env m c tp mt t1).1._publishers tp
          = some p →
        (p.clients = [c] →
          lookupPub (PublisherManager.unregister
            (PublisherManager.register env m c tp mt t1).1 c tp)._publishers tp
            = none)
        ∧ ∀ q, lookupPub (PublisherManager.unregister
            (PublisherManager.register env m c tp mt t1).1 c tp)._publishers tp
            = some q → c ∉ q.clients) := by
  obtain ⟨p0, hmt, hlk1, _⟩ := PublisherManager.register_ok_cases env m c tp mt t1 h1
  have hw1 : WF (PublisherManager.register env m c tp mt t1).1 :=
    PublisherManager.wf_register env m c tp mt t1 hw
  obtain ⟨m1, hm1⟩ : ∃ x, (PublisherManager.register env m c tp mt t1).1 = x := ⟨_, rfl⟩
  rw [hm1] at hlk1 hw1
  rw [hm1]
  refine ⟨fun p c2 h => MultiPublisher.register_client_of_mem p c2 h, ?_, ?_⟩
  · have hv : ∀ T, mt = some T →
        MultiPublisher.verify_type env (p0.register_client c) T = .ok () := by
      intro T hT
      exact (MultiPublisher.verify_type_eq_ok_iff env _ T).mpr
        (by rw [MultiPublisher.register_client_msg_class]; exact hmt T hT)
    have hP : (p0.register_client c).register_client c = p0.register_client c :=
      MultiPublisher.register_client_of_mem _ c (MultiPublisher.register_client_mem p0 c)
    have hset : setPubL m1._publishers tp ((p0.register_client c).register_client c)
        = m1._publishers := by
      rw [hP]
      exact setPubL_lookup_self m1._publishers tp _ hw1.1 hlk1
    unfold PublisherManager.register
    simp only [hlk1]
    cases mt with
    | none =>
      unfold PublisherManager.registerFinish
      rw [hset]
    | some T =>
      unfold PublisherManager.registerFinish
      simp only [hv T rfl]
      rw [hset]
  · intro p hp
    constructor
    · intro hcl
      have hemp : (p.unregister_client c).clients = [] := by
        rw [PublisherManager.unregister_client_clients, hcl, List.erase_cons_head]
      rw [PublisherManager.unregister_of_remove m1 c tp p hp hemp]
      exact lookupPub_removePubL_self _ _
    · intro q hq
      by_cases hcl : (p.unregister_client c).clients = []
      · rw [PublisherManager.unregister_of_remove m1 c tp p hp hcl,
          lookupPub_removePubL_self] at hq
        exact absurd hq (by simp)
      · rw [PublisherManager.unregister_of_keep m1 c tp p hp hcl] at hq
        have hs := lookupPub_setPubL_self m1._publishers tp (p.unregister_client c)
        rw [hp] at hs
        simp only [Option.map_some'] at hs
        have hqe : q = p.unregister_client c :=
          ((Option.some.injEq _ _).mp (hs.symm.trans hq)).symm
        rw [hqe, PublisherManager.unregister_client_clients]
        have hnd : p.clients.Nodup := hw1.2 _ (lookupPub_mem _ _ _ hp)
        exact hnd.not_mem_erase

/-- C9 witness: on the concrete registry, after "A" registers "/chatter", a
second identical register is the identity, and a single unregister then
removes the endpoint entirely. -/
theorem c9_witness :
    (PublisherManager.register envA emptyMgr "A" "/chatter" none 0).2 = none ∧
    PublisherManager.register envA
      (PublisherManager.register envA emptyMgr "A" "/chatter" none 0).1
      "A" "/chatter" none 1 =
      ((PublisherManager.register envA emptyMgr "A" "/chatter" none 0).1, none) ∧
    lookupPub (PublisherManager.unregister
      (PublisherManager.register envA emptyMgr "A" "/chatter" none 0).1
      "A" "/chatter")._publishers "/chatter" = none :=
  ⟨by decide,
   (c9_register_no_multiplicity envA emptyMgr "A" "/chatter" none 0 1
     (by decide) (by decide)).2.1,
   ((c9_register_no_multiplicity envA emptyMgr "A" "/chatter" none 0 1
       (by decide) (by decide)).2.2
     { eid := 0, topic := "/chatter", msg_class := ⟨0, "std_msgs/String"⟩,
       clients := ["A"], listener := ⟨true, 0, []⟩ } (by decide)).1 (by decide)⟩

/-- C6: for a channel whose endpoint has exactly one registered client,
unregistering that client closes the endpoint (its client set is cleared)
and removes the channel from the registry; a subsequent successful register
on the channel constructs a brand-new endpoint - a fresh identity, a
freshly attached listener whose timeout window starts at the new
registration time, an empty buffer - holding exactly the new client. -/
theorem c6_teardown_fresh_endpoint (env : RosEnv) (m : PublisherManager)
    (c c2 tp : String) (mt : Option String) (p : MultiPublisher) (t2 : Nat)
    (hlk : lookupPub m._publishers tp = some p)
    (hcl : p.clients = [c]) (heid : p.eid < m.nextEid) :
    ((p.unregister_client c).unregister.clients = []
     ∧ lookupPub (PublisherManager.unregister m c tp)._publishers tp = none
     ∧ (PublisherManager.unregister m c tp).nextEid = m.nextEid)
    ∧ ((PublisherManager.register env (PublisherManager.unregister m c tp)
          c2 tp mt t2).2 = none →
       ∃ p2, lookupPub (PublisherManager.register env
             (PublisherManager.unregister m c tp) c2 tp mt t2).1._publishers tp
           = some p2
         ∧ p2.eid = m.nextEid ∧ p2.eid ≠ p.eid
         ∧ p2.listener = PublisherConsistencyListener.attach t2
         ∧ p2.listener.msg_buffer = []
         ∧ p2.clients = [c2]) := by
  have hemp : (p.unregister_client c).clients = [] := by
    rw [PublisherManager.unregister_client_clients, hcl, List.erase_cons_head]
  have hun : PublisherManager.unregister m c tp =
      ⟨removePubL m._publishers tp, m.nextEid⟩ :=
    PublisherManager.unregister_of_remove m c tp p hlk hemp
  refine ⟨⟨rfl, ?_, ?_⟩, ?_⟩
  · rw [hun]
    exact lookupPub_removePubL_self _ _
  · rw [hun]
  · intro h2
    obtain ⟨p0, _, hlk2, hc | hc⟩ := PublisherManager.register_ok_cases env
      (PublisherManager.unregister m c tp) c2 tp mt t2 h2
    · exfalso
      have hx : lookupPub (removePubL m._publishers tp) tp = some p0 := by
        have hy := hc.1
        rw [hun] at hy
        exact hy
      rw [lookupPub_removePubL_self] at hx
      exact Option.noConfusion hx
    · obtain ⟨heid0, _, hcl0, hlis0⟩ := MultiPublisher.init_ok_fields env
        (PublisherManager.unregister m c tp).nextEid tp mt t2 p0 hc.2.1
      refine ⟨p0.register_client c2, hlk2, ?_, ?_, ?_, ?_, ?_⟩
      · rw [MultiPublisher.register_client_eid, heid0, hun]
      · rw [MultiPublisher.register_client_eid, heid0, hun]
        exact (Nat.ne_of_lt heid).symm
      · rw [MultiPublisher.register_client_listener, hlis0]
      · rw [MultiPublisher.register_client_listener, hlis0]
        rfl
      · exact MultiPublisher.register_client_of_nil p0 c2 hcl0

/-- C6 witness: unregistering the single client "A" of "/chatter" removes
the entry, and a new register by "B" at time 7 creates a fresh endpoint
(identity 1, listener attached at 7, empty buffer, client set just "B"). -/
theorem c6_witness :
    lookupPub mgrA._publishers "/chatter" = some pubA ∧
    pubA.clients = ["A"] ∧ pubA.eid < mgrA.nextEid ∧
    lookupPub (PublisherManager.unregister mgrA "A" "/chatter")._publishers
      "/chatter" = none ∧
    (PublisherManager.register envA (PublisherManager.unregister mgrA "A" "/chatter")
      "B" "/chatter" none 7).2 = none ∧
    (∃ p2, lookupPub (PublisherManager.register envA
          (PublisherManager.unregister mgrA "A" "/chatter")
          "B" "/chatter" none 7).1._publishers "/chatter" = some p2
      ∧ p2.eid = mgrA.nextEid ∧ p2.eid ≠ pubA.eid
      ∧ p2.listener = PublisherConsistencyListener.attach 7
      ∧ p2.listener.msg_buffer = []
      ∧ p2.clients = ["B"]) :=
  ⟨by decide, by decide, by decide,
   ((c6_teardown_fresh_endpoint envA mgrA "A" "B" "/chatter" none pubA 7
      (by decide) (by decide) (by decide)).1).2.1,
   by decide,
   (c6_teardown_fresh_endpoint envA mgrA "A" "B" "/chatter" none pubA 7
      (by decide) (by decide) (by decide)).2 (by decide)⟩

/-- C1: from any well-formed registry state in which channel C holds one
live endpoint with identity e, every interleaving of register and publish
calls - any clients, any channels, any supplied types, succeeding or
failing - preserves: the registry has exactly one entry for C, that entry
is the same endpoint object (same identity), and has_clients is true; and
an unregister that still leaves some client on C's endpoint also preserves
all of it, so the endpoint persists until its last client unregisters. -/
theorem c1_shared_endpoint_invariant (env : RosEnv) (m : PublisherManager)
    (C : String) (e : Nat) (ops : List MgrOp) (hw : WF m) (hg : goodAt m C e)
    (hops : ∀ op ∈ ops, isRegPub op = true) :
    goodAt (runMgr env m ops) C e
    ∧ countKey (runMgr env m ops) C = 1
    ∧ (∀ c p, lookupPub (runMgr env m ops)._publishers C = some p →
        p.clients.erase c ≠ [] →
        goodAt (PublisherManager.unregister (runMgr env m ops) c C) C e) := by
  have hg1 := goodAt_runMgr env m C e ops hg hops
  have hw1 := PublisherManager.wf_runMgr env m ops hw
  refine ⟨hg1, countKey_eq_one _ C e hw1 hg1, ?_⟩
  intro c p hlk hcl
  apply goodAt_unreg _ c C C e hg1
  intro p2 hp2 _
  have hpe : p2 = p := by
    rw [hlk] at hp2
    exact ((Option.some.injEq _ _).mp hp2).symm
  rw [hpe]
  exact hcl

/-- C1 witness: starting from the concrete registry with endpoint identity
0 for "/chatter" and client "A", running a register by "B" and a publish by
"A" keeps a single entry with the same identity and clients present, and
unregistering "B" (leaving "A") still preserves it. -/
theorem c1_witness :
    goodAt (runMgr envA mgrA
      [MgrOp.reg "B" "/chatter" none 0, MgrOp.pub "A" "/chatter" "hi" 0])
      "/chatter" 0
    ∧ countKey (runMgr envA mgrA
        [MgrOp.reg "B" "/chatter" none 0, MgrOp.pub "A" "/chatter" "hi" 0])
        "/chatter" = 1
    ∧ goodAt (PublisherManager.unregister (runMgr envA mgrA
        [MgrOp.reg "B" "/chatter" none 0, MgrOp.pub "A" "/chatter" "hi" 0])
        "B" "/chatter") "/chatter" 0 :=
  ⟨(c1_shared_endpoint_invariant envA mgrA "/chatter" 0
      [MgrOp.reg "B" "/chatter" none 0, MgrOp.pub "A" "/chatter" "hi" 0]
      (by decide) ⟨pubA, by decide, by decide, by decide⟩ (by decide)).1,
   (c1_shared_endpoint_invariant envA mgrA "/chatter" 0
      [MgrOp.reg "B" "/chatter" none 0, MgrOp.pub "A" "/chatter" "hi" 0]
      (by decide) ⟨pubA, by decide, by decide, by decide⟩ (by decide)).2.1,
   (c1_shared_endpoint_invariant envA mgrA "/chatter" 0
      [MgrOp.reg "B" "/chatter" none 0, MgrOp.pub "A" "/chatter" "hi" 0]
      (by decide) ⟨pubA, by decide, by decide, by decide⟩ (by decide)).2.2
     "B" { eid := 0, topic := "/chatter", msg_class := ⟨0, "std_msgs/String"⟩,
           clients := ["A", "B"], listener := ⟨true, 0, ["hi"]⟩ }
     (by decide) (by decide)⟩

end RosbridgePublishers
